import Mathlib

/-!
Verification of the donor-matching and notification-dispatch core of the
`hema_adk` Firebase functions module (`src/unnamed/part_000`).

The JavaScript trigger handlers `onBloodRequestCreated`, `onMatchedDonorAdded`
and `onBloodRequestDeleted` are shallowly embedded below.  Conventions used
throughout the embedding:

* JavaScript string fields read through `|| ""` or tested for truthiness are
  modelled as `String`, with `""` standing for both the empty string and a
  missing field (JavaScript conflates the two under `||` and `!`).
* Firestore document lookups are modelled as functions into `Option` of the
  document type (`none` is `!doc.exists`).
* The geohash range queries of a radius step are modelled as an arbitrary
  function from the radius to the list of snapshots (each snapshot a list of
  donor documents): the properties proved hold for every possible query
  result, matching the role of the range query as a coarse prefilter.
* `geofire.distanceBetween` is an external library call; it is embedded as an
  arbitrary rational-valued function parameter of the search context.
* The JavaScript `Map` keyed by document id is modelled as an association
  list in insertion order; `Map.set` on a fresh key appends at the end, and
  on an existing key replaces the value in place.
-/

namespace Hema

/-- A latitude/longitude pair (`donor.geo.geopoint`), with exact rational
coordinates. -/
structure Geo where
  lat : ℚ
  lon : ℚ
deriving DecidableEq, Repr

/-- A document of the `donors` collection as read by `findMatchingDonors`
(lines 295-343): blood group (`donor.bloodGroup || ""`), optional geopoint,
owner uid (`""` when the `uid` field is missing, line 315-319), and the
availability flag. `docId` is the Firestore document id (`doc.id`). -/
structure DonorDoc where
  docId : String
  bloodGroup : String
  geo : Option Geo
  uid : String
  isAvailable : Bool
deriving DecidableEq, Repr

/-- A document of the `users` collection: notification token (`""` models a
missing or empty `fcmToken`), name parts and the two addresses used by
`onMatchedDonorAdded`. -/
structure UserDoc where
  fcmToken : String
  firstName : String
  lastName : String
  daytimeAddress : String
  nighttimeAddress : String
deriving DecidableEq, Repr

/-- The value stored into `matchingDonors` on acceptance (line 334):
`{ ...donor, fcmToken: userData.fcmToken, uid: donorUid }`.  The geopoint is
known to be present at that point, so it is carried unwrapped. -/
structure MatchedDonor where
  bloodGroup : String
  geo : Geo
  isAvailable : Bool
  uid : String
  fcmToken : String
deriving DecidableEq, Repr

/-- The inputs and external collaborators of one donor search
(`findMatchingDonors`, lines 269-356): the distance function, the geohash
range-query results per radius, the `users` collection, the search center,
the raw requested blood groups and the target donor count. -/
structure SearchCtx where
  dist : Geo → Geo → ℚ
  store : ℕ → List (List DonorDoc)
  users : String → Option UserDoc
  center : Geo
  requestedGroups : List String
  target : ℕ

/-- JavaScript `String.prototype.trim` (leading and trailing whitespace
removed), implemented on the character list so that it evaluates by plain
kernel reduction. -/
def jsTrim (s : String) : String :=
  ⟨((s.data.dropWhile Char.isWhitespace).reverse.dropWhile
      Char.isWhitespace).reverse⟩

/-- JavaScript `String.prototype.toUpperCase` restricted to ASCII letters (the
alphabet of blood-group strings), on the character list. -/
def jsToUpper (s : String) : String :=
  ⟨s.data.map Char.toUpper⟩

/-- Blood-group normalization (lines 279-281 and 302):
`bg.trim().toUpperCase()`. -/
def normalizeBG (s : String) : String :=
  jsToUpper (jsTrim s)

/-- `standardizedRequestedGroups` (lines 279-281). -/
def stdGroups (ctx : SearchCtx) : List String :=
  ctx.requestedGroups.map normalizeBG

/-- `matchingDonors.has(key)` on the association-list model of the Map. -/
def mapHas (m : List (String × MatchedDonor)) (k : String) : Bool :=
  m.any (fun p => p.1 == k)

/-- Processing of a single returned donor document (lines 297-343): skip if
already accepted, skip on missing geopoint, missing uid or missing user
document, then accept exactly when distance, blood group, availability and
token all pass; acceptance appends the enriched donor under `doc.id`. -/
def tryAccept (ctx : SearchCtx) (r : ℕ) (m : List (String × MatchedDonor))
    (doc : DonorDoc) : Option (List (String × MatchedDonor)) :=
  if mapHas m doc.docId then none
  else
    match doc.geo with
    | none => none
    | some g =>
      if doc.uid = "" then none
      else
        match ctx.users doc.uid with
        | none => none
        | some userData =>
          if ctx.dist g ctx.center ≤ (r : ℚ) ∧
              normalizeBG doc.bloodGroup ∈ stdGroups ctx ∧
              doc.isAvailable = true ∧
              userData.fcmToken ≠ "" then
            some (m ++ [(doc.docId,
              { bloodGroup := doc.bloodGroup, geo := g,
                isAvailable := doc.isAvailable, uid := doc.uid,
                fcmToken := userData.fcmToken })])
          else none

/-- The inner `for (const doc of snap.docs)` loop (lines 297-344): documents
are processed in order, and the loop breaks as soon as an acceptance reaches
the target count (line 335). -/
def processDocs (ctx : SearchCtx) (r : ℕ) :
    List DonorDoc → List (String × MatchedDonor) → List (String × MatchedDonor)
  | [], m => m
  | doc :: rest, m =>
    match tryAccept ctx r m doc with
    | none => processDocs ctx r rest m
    | some m' => if ctx.target ≤ m'.length then m' else processDocs ctx r rest m'

/-- The outer `for (const snap of snapshots)` loop (lines 295-346) with its
break once the target count is reached (line 345). -/
def processSnaps (ctx : SearchCtx) (r : ℕ) :
    List (List DonorDoc) → List (String × MatchedDonor) → List (String × MatchedDonor)
  | [], m => m
  | snap :: rest, m =>
    let m' := processDocs ctx r snap m
    if ctx.target ≤ m'.length then m' else processSnaps ctx r rest m'

/-- The mutable state of the `while` loop of `findMatchingDonors`:
`matchingDonors`, `currentRadiusKm` and `expandedToMax`. -/
structure SearchState where
  map : List (String × MatchedDonor)
  currentRadiusKm : ℕ
  expandedToMax : Bool
deriving DecidableEq, Repr

/-- One pass of the `while` body (lines 283-354): run all range queries for
the current radius, fold the returned documents into the accepted map, then,
if still under target, flag when the next step would exceed the ceiling and
advance the radius by the step. -/
def processRadius (ctx : SearchCtx) (st : SearchState) : SearchState :=
  if (processSnaps ctx st.currentRadiusKm (ctx.store st.currentRadiusKm) st.map).length
      < ctx.target then
    { map := processSnaps ctx st.currentRadiusKm (ctx.store st.currentRadiusKm) st.map
      currentRadiusKm := st.currentRadiusKm + 2
      expandedToMax := st.expandedToMax || decide (50 < st.currentRadiusKm + 2) }
  else
    { st with
      map := processSnaps ctx st.currentRadiusKm (ctx.store st.currentRadiusKm) st.map }

/-- One guarded iteration of the `while` loop
(`currentRadiusKm <= maxRadiusKm && matchingDonors.size < targetDonorCount`,
line 283); when the guard fails the state is unchanged. -/
def iterStep (ctx : SearchCtx) (st : SearchState) : SearchState :=
  if st.currentRadiusKm ≤ 50 ∧ st.map.length < ctx.target then processRadius ctx st
  else st

/-- The loop entry state (lines 270-274): empty map, start radius 2 km,
flag unset. -/
def initState : SearchState :=
  { map := [], currentRadiusKm := 2, expandedToMax := false }

/-- The state after `k` guarded iterations of the `while` loop, starting from
`initState`. -/
def searchIter (ctx : SearchCtx) : ℕ → SearchState
  | 0 => initState
  | k + 1 => iterStep ctx (searchIter ctx k)

/-- `findMatchingDonors` (lines 269-356): 25 iterations are enough to reach
the loop's fixpoint (radii 2,4,...,50), proved below. -/
def findMatchingDonors (ctx : SearchCtx) : SearchState :=
  searchIter ctx 25

/-- `targetDonorCount = Math.min(Math.max(unitsNeeded, 3), 5)` (line 462). -/
def targetDonorCount (units : ℕ) : ℕ :=
  min (max units 3) 5

/-- The full per-document eligibility predicate of one radius step: geopoint
present, owning user document present, exact distance within the radius,
normalized blood group requested, available, and token present.  A document
accepted by `tryAccept` at radius `r` satisfies this. -/
def eligibleDoc (ctx : SearchCtx) (r : ℕ) (doc : DonorDoc) : Prop :=
  ∃ g userData, doc.geo = some g ∧ ctx.users doc.uid = some userData ∧
    ctx.dist g ctx.center ≤ (r : ℚ) ∧
    normalizeBG doc.bloodGroup ∈ stdGroups ctx ∧
    doc.isAvailable = true ∧ userData.fcmToken ≠ ""

/-- Termination measure for the `while` loop: distance of the radius to the
post-ceiling value plus a bonus while the target is unmet.  Every guarded
iteration decreases it by exactly 2. -/
def searchMeasure (ctx : SearchCtx) (st : SearchState) : ℕ :=
  (52 - st.currentRadiusKm) + (if st.map.length < ctx.target then 2 else 0)

/-- The two acceptance facts guaranteed for every donor entering the map at
radius `r`: exact distance within `r`, and normalized blood group among the
normalized requested groups. -/
def GoodPair (ctx : SearchCtx) (r : ℕ) (p : String × MatchedDonor) : Prop :=
  ctx.dist p.2.geo ctx.center ≤ (r : ℚ) ∧
    normalizeBG p.2.bloodGroup ∈ stdGroups ctx

/-! ### The relevance-filter (ADK agent) step, lines 475-535 -/

/-- Outcome of `JSON.parse(filterResponse.data.reply)` followed by the
`Array.isArray` check (lines 504-523). -/
inductive AgentReply where
  | parseError
  | nonArray
  | idList (ids : List String)
deriving DecidableEq, Repr

/-- Outcome of the `axios.post` call to the agent service (lines 482-529):
the call threw (network error, timeout, non-2xx status), the response lacked
`status === 200 && data.reply`, or a reply string was obtained. -/
inductive AgentOutcome where
  | requestFailed
  | invalidResponse
  | reply (r : AgentReply)
deriving DecidableEq, Repr

/-- JavaScript `Map.set` on the association-list model: replace in place if
the key exists, else append. -/
def mapSet (m : List (String × MatchedDonor)) (k : String) (v : MatchedDonor) :
    List (String × MatchedDonor) :=
  if mapHas m k then m.map (fun p => if p.1 = k then (k, v) else p)
  else m ++ [(k, v)]

/-- `donorIds = Array.from(matchingDonors.values()).map(d => d.uid)`
(line 478). -/
def donorIdsOf (m : List (String × MatchedDonor)) : List String :=
  m.map (fun p => p.2.uid)

/-- The rebuild loop of lines 515-520: a fresh Map, filled with
`filteredMatchingDonors.set(donor.uid, donor)` for every accepted donor whose
uid is in the filtered id list. -/
def rebuildByUid (m : List (String × MatchedDonor)) (ids : List String) :
    List (String × MatchedDonor) :=
  m.foldl (fun acc p => if p.2.uid ∈ ids then mapSet acc p.2.uid p.2 else acc) []

/-- The complete filtering step (lines 476-529): `filteredMatchingDonors`
starts as the original map; a failed call, an invalid response or a parsed
non-array leaves it unchanged; an unparseable reply falls back to the full
original id list and rebuilds the map keyed by uid; a parsed id list rebuilds
the map keyed by uid from the listed donors. -/
def adkFilterStep (m : List (String × MatchedDonor)) (o : AgentOutcome) :
    List (String × MatchedDonor) :=
  match o with
  | .requestFailed => m
  | .invalidResponse => m
  | .reply .parseError => rebuildByUid m (donorIdsOf m)
  | .reply .nonArray => m
  | .reply (.idList ids) => rebuildByUid m ids

/-! ### The tail of `onBloodRequestCreated`, lines 537-590

The `messageContent` object literal of lines 539-561 reads the identifiers
`after`, `providerName`, `donorUid`, `donorDataMsg` and `providerDocSnap`,
none of which is bound in `onBloodRequestCreated` (they are locals of
`onMatchedDonorAdded`, lines 598-672).  The module is ES-module code, so
reading an unbound identifier throws a `ReferenceError`, which the
surrounding `try`/`catch` (lines 445, 587-590) swallows before any of the
writes of line 579-583 can run.  The embedding makes scoping explicit. -/

/-- The identifiers read by the `messageContent` expression (lines 539-561),
in first-evaluation order of the object literal. -/
def messageContentIdents : List String :=
  ["after", "providerName", "providerData", "donorUid", "donorDataMsg",
   "requestId", "event", "providerDocSnap"]

/-- All identifiers in scope inside `onBloodRequestCreated` at line 539:
module-level bindings of `src/unnamed/part_000` plus the handler's parameters,
helper functions and the `const`s declared before line 539. -/
def onBloodRequestCreatedScope : List String :=
  ["onCall", "HttpsError", "onDocumentCreated", "onDocumentUpdated",
   "onDocumentWritten", "defineSecret", "logger", "axios", "admin", "geofire",
   "nodemailer", "googlePlacesApiKey", "sendAdminNotification",
   "googlePlacesAutocomplete", "getPlaceDetails", "deleteUser",
   "onBloodRequestCreated", "onMatchedDonorAdded", "onBloodRequestDeleted",
   "onProviderVerificationCreated",
   "event", "requestData", "providerId", "requestId",
   "findMatchingDonors", "sendNoDonorNotification", "writeMessagesToDonors",
   "sendDonorNotification", "updateRequestWithFoundDonors",
   "providerRef", "providerDoc", "providerData", "providerLoc", "center",
   "requestedGroups", "unitsNeeded", "targetDonorCount", "matchingDonors",
   "expandedToMax", "currentRadiusKm", "filteredMatchingDonors", "requestRef"]

/-- The first identifier of `refs` not bound in `scope`: the one whose read
raises the `ReferenceError`. -/
def firstUnboundIdent (refs scope : List String) : Option String :=
  refs.find? (fun r => !(scope.contains r))

/-- Result of the tail of the creation handler: either all three side effects
of lines 579-583 (the `foundDonors` update with the map's keys, one message
record per unique uid, the multicast to the collected tokens), or the caught
`ReferenceError` with no side effect at all. -/
inductive CreationTailResult where
  | completed (foundDonorsWrite : List String) (messageRecipients : List String)
      (pushTokens : List String)
  | caughtReferenceError (ident : String)
deriving DecidableEq, Repr

/-- JavaScript `Set` insertion over a list: first occurrences kept, in
insertion order (`uniqueUids` of lines 405-408). -/
def jsSetInsertAll (l : List String) : List String :=
  l.foldl (fun acc x => if x ∈ acc then acc else acc ++ [x]) []

/-- The tail of `onBloodRequestCreated` after the filtering step (lines
537-590), parameterized by the identifier scope: if every identifier read by
`messageContent` is bound, the three side effects of line 579-583 happen;
otherwise the `ReferenceError` propagates to the catch of line 587 and
nothing is written or sent. -/
def onBloodRequestCreatedTail (scope : List String)
    (filtered : List (String × MatchedDonor)) : CreationTailResult :=
  match firstUnboundIdent messageContentIdents scope with
  | some x => .caughtReferenceError x
  | none =>
    .completed (filtered.map Prod.fst)
      (jsSetInsertAll (filtered.map (fun p => p.2.uid)))
      (filtered.map (fun p => p.2.fcmToken))

/-! ### `onMatchedDonorAdded` (lines 594-711) and `onBloodRequestDeleted`
(lines 713-759) -/

/-- The request entity fields read by the update and delete handlers:
`matchedDonors` (`none` models a missing or non-array field, line 603),
`requestedBy` (`""` models a missing value, line 610-611) and `foundDonors`
(`none` models a missing or non-array field, lines 721-722). -/
structure RequestDoc where
  matchedDonors : Option (List String)
  requestedBy : String
  foundDonors : Option (List String)
deriving DecidableEq, Repr

/-- The provider fields read for the provider display name (lines 618-620). -/
structure ProviderDoc where
  organizationName : String
  organisationName : String
  name : String
  address : String
deriving DecidableEq, Repr

/-- JavaScript `a || b` on strings (empty string is falsy). -/
def jsOr (a b : String) : String :=
  if a = "" then b else a

/-- `providerData.organizationName || providerData.organisationName ||
providerData.name || ""` (line 620). -/
def providerNameOf (p : ProviderDoc) : String :=
  jsOr p.organizationName (jsOr p.organisationName (jsOr p.name ""))

/-- The externally visible side effects of the update handler: a multicast
push, a match-record write (`users/{donorUid}/matches/{requestId}`, lines
657-667) or a message-record write (lines 698-706). -/
inductive Effect where
  | push (tokens : List String) (title body requestId donorId : String)
  | matchWrite (donorUid requestId status providerName : String)
  | messageWrite (donorUid requestId : String)
deriving DecidableEq, Repr

/-- The per-donor body of the `for (const donorUid of newDonors)` loop (lines
623-707): skip if the donor's user document is missing; otherwise send the
requester push (whose body carries the donor name and the daytime address
when `6 <= hour < 18`, else the nighttime address, lines 629-646), write the
match record with status `"matched"` and the provider name, and append the
message record. -/
def processConfirmedDonor (users : String → Option UserDoc)
    (requesterToken pname requestId : String) (hour : ℕ) (donorUid : String) :
    List Effect :=
  match users donorUid with
  | none => []
  | some d =>
    let donorName := jsTrim (d.firstName ++ " " ++ d.lastName)
    let area := if 6 ≤ hour ∧ hour < 18 then d.daytimeAddress else d.nighttimeAddress
    [Effect.push [requesterToken] "A suitable donor has confirmed availability."
        ("Name: " ++ donorName ++ "\nArea: " ++ jsOr area "Unknown" ++
          "\nKindly prepare for donation.")
        requestId donorUid,
      Effect.matchWrite donorUid requestId "matched" pname,
      Effect.messageWrite donorUid requestId]

/-- `onMatchedDonorAdded` (lines 594-711) as its list of side effects, with
the wall-clock hour (`new Date().getHours()`, line 631) as a parameter: exit
with no effect when either `matchedDonors` is not an array, no new donor id
was added, the requester id is missing, the requester's user document is
missing or lacks a token; otherwise process each newly added donor id. -/
def onMatchedDonorAddedEffects (before after : RequestDoc)
    (users : String → Option UserDoc) (provider : Option ProviderDoc)
    (requestId : String) (hour : ℕ) : List Effect :=
  match before.matchedDonors, after.matchedDonors with
  | some bs, some curr =>
    if (curr.filter (fun id => decide (id ∉ bs))).length = 0 then []
    else if after.requestedBy = "" then []
    else
      match users after.requestedBy with
      | none => []
      | some u =>
        if u.fcmToken = "" then []
        else
          (curr.filter (fun id => decide (id ∉ bs))).flatMap
            (processConfirmedDonor users u.fcmToken
              (providerNameOf (provider.getD ⟨"", "", "", ""⟩)) requestId hour)
  | _, _ => []

/-- Resolution of one recorded donor id to its push token (lines 725-732):
`none` when the user document is missing or its token is falsy
(`doc.exists && doc.data().fcmToken` followed by `filter(Boolean)`). -/
def cancelTokenOf (users : String → Option UserDoc) (uid : String) :
    Option (String × String) :=
  match users uid with
  | none => none
  | some u => if u.fcmToken = "" then none else some (uid, u.fcmToken)

/-- The per-donor token resolution of the delete handler (lines 724-732),
keeping track of which recorded donor contributed which token: donors whose
user document is missing or tokenless are dropped (`filter(Boolean)`). -/
def cancellationRecipients (bd : RequestDoc) (users : String → Option UserDoc) :
    List (String × String) :=
  (bd.foundDonors.getD []).filterMap (cancelTokenOf users)

/-- `onBloodRequestDeleted` (lines 713-759) as the list of multicast sends it
performs (each send is one token batch): a no-op unless the document
transitions from existing to not existing; then a no-op when the recorded
`foundDonors` list is empty or absent or when no recorded donor has a token;
otherwise exactly one multicast to the resolved tokens. -/
def onBloodRequestDeletedSends (before after : Option RequestDoc)
    (users : String → Option UserDoc) : List (List String) :=
  match after, before with
  | none, some bd =>
    if (bd.foundDonors.getD []).length = 0 then []
    else if ((cancellationRecipients bd users).map Prod.snd).length = 0 then []
    else [(cancellationRecipients bd users).map Prod.snd]
  | _, _ => []

/-! ### Concrete instances used by the witnesses -/

/-- A concrete distance function for witnesses (the discrete metric: 0 at
equal points, 1 otherwise); the theorems hold for every distance function. -/
def distW : Geo → Geo → ℚ :=
  fun a b => if a.lat = b.lat ∧ a.lon = b.lon then 0 else 1

/-- A concrete eligible donor document one distance unit from the origin. -/
def donorDocW : DonorDoc :=
  { docId := "d1", bloodGroup := "O+", geo := some ⟨0, 1⟩, uid := "u1",
    isAvailable := true }

/-- A concrete ineligible donor document (blood group not requested). -/
def donorDocW2 : DonorDoc :=
  { docId := "d2", bloodGroup := "AB+", geo := some ⟨0, 1⟩, uid := "u1",
    isAvailable := true }

/-- A concrete `users` collection for the witnesses. -/
def usersW : String → Option UserDoc :=
  fun uid => if uid = "u1" then
    some { fcmToken := "t1", firstName := "Ada", lastName := "Obi",
           daytimeAddress := "Day St", nighttimeAddress := "Night St" }
  else none

/-- A concrete search context: one eligible donor, requested group `O+`,
target 3. -/
def ctxW : SearchCtx :=
  { dist := distW, store := fun _ => [[donorDocW, donorDocW2]], users := usersW,
    center := ⟨0, 0⟩, requestedGroups := ["O+"], target := 3 }

/-- The enriched value stored for `donorDocW` upon acceptance. -/
def matchedW : MatchedDonor :=
  { bloodGroup := "O+", geo := ⟨0, 1⟩, isAvailable := true, uid := "u1",
    fcmToken := "t1" }

/-- The ineligible donor's would-be enriched value (never stored). -/
def matchedW2 : MatchedDonor :=
  { bloodGroup := "AB+", geo := ⟨0, 1⟩, isAvailable := true, uid := "u1",
    fcmToken := "t1" }

/-- A concrete search context whose range queries return nothing. -/
def ctxE : SearchCtx :=
  { dist := distW, store := fun _ => [], users := usersW,
    center := ⟨0, 0⟩, requestedGroups := ["O+"], target := 3 }

/-- Two accepted records of the same user (the `donors` collection holds a
`_daytime` and a `_nighttime` document per user, see `deleteUser`,
lines 214-222), with distinct payloads. -/
def dualA : MatchedDonor :=
  { bloodGroup := "O+", geo := ⟨0, 0⟩, isAvailable := true, uid := "u",
    fcmToken := "ta" }

/-- Second record of the same user as `dualA`. -/
def dualB : MatchedDonor :=
  { bloodGroup := "O+", geo := ⟨0, 1⟩, isAvailable := true, uid := "u",
    fcmToken := "tb" }

/-- A pre-filter map holding both records of one user, keyed by document id. -/
def dualMapW : List (String × MatchedDonor) :=
  [("u_daytime", dualA), ("u_nighttime", dualB)]

/-- A single-donor pre-filter map for the relevance-filter witness. -/
def singleMapW : List (String × MatchedDonor) :=
  [("u_daytime", dualA)]

/-- Concrete request state before the update, for the confirmation
witnesses. -/
def beforeW : RequestDoc :=
  { matchedDonors := some ["a"], requestedBy := "r1", foundDonors := none }

/-- Concrete request state after a redelivered (unchanged) update. -/
def afterW : RequestDoc :=
  { matchedDonors := some ["a"], requestedBy := "r1", foundDonors := none }

/-- Request state before an update that adds donor `d1`. -/
def beforeAdd : RequestDoc :=
  { matchedDonors := some [], requestedBy := "r1", foundDonors := none }

/-- Request state after an update that adds donor `d1`. -/
def afterAdd : RequestDoc :=
  { matchedDonors := some ["d1"], requestedBy := "r1", foundDonors := none }

/-- A `users` collection whose requester `r1` has no token while donor `d1`
is fully populated. -/
def usersNoReqToken : String → Option UserDoc :=
  fun uid =>
    if uid = "r1" then
      some { fcmToken := "", firstName := "Req", lastName := "One",
             daytimeAddress := "", nighttimeAddress := "" }
    else if uid = "d1" then
      some { fcmToken := "td", firstName := "Don", lastName := "Or",
             daytimeAddress := "Day Rd", nighttimeAddress := "Night Rd" }
    else none

/-- The concrete requester profile used by the confirmation witnesses. -/
def requesterW : UserDoc :=
  { fcmToken := "tr", firstName := "Req", lastName := "One",
    daytimeAddress := "", nighttimeAddress := "" }

/-- The concrete donor profile used by the confirmation witnesses. -/
def donorUserW : UserDoc :=
  { fcmToken := "td", firstName := "Don", lastName := "Or",
    daytimeAddress := "Day Rd", nighttimeAddress := "Night Rd" }

/-- A `users` collection where requester and donor both resolve with
tokens. -/
def usersFull : String → Option UserDoc :=
  fun uid =>
    if uid = "r1" then some requesterW
    else if uid = "d1" then some donorUserW
    else none

/-- A deleted request that had recorded notified donors `A` and `B`. -/
def deletedReqW : RequestDoc :=
  { matchedDonors := none, requestedBy := "", foundDonors := some ["A", "B"] }

/-- A `users` collection where recorded donor `A` has a token and `B` has no
user document. -/
def usersCancelW : String → Option UserDoc :=
  fun uid =>
    if uid = "A" then
      some { fcmToken := "tA", firstName := "", lastName := "",
             daytimeAddress := "", nighttimeAddress := "" }
    else none

/-! ## Lemmas about the expanding-radius search -/

lemma mapHas_eq_true {m : List (String × MatchedDonor)} {k : String} :
    mapHas m k = true ↔ k ∈ m.map Prod.fst := by
  constructor
  · intro h
    rcases List.any_eq_true.1 h with ⟨p, hp, he⟩
    exact (beq_iff_eq.1 he) ▸ List.mem_map_of_mem Prod.fst hp
  · intro h
    rcases List.mem_map.1 h with ⟨p, hp, he⟩
    exact List.any_eq_true.2 ⟨p, hp, beq_iff_eq.2 he⟩

lemma tryAccept_eq_some {ctx : SearchCtx} {r : ℕ}
    {m : List (String × MatchedDonor)} {doc : DonorDoc}
    {m' : List (String × MatchedDonor)}
    (h : tryAccept ctx r m doc = some m') :
    ∃ g userData, doc.geo = some g ∧ ctx.users doc.uid = some userData ∧
      mapHas m doc.docId = false ∧
      ctx.dist g ctx.center ≤ (r : ℚ) ∧
      normalizeBG doc.bloodGroup ∈ stdGroups ctx ∧
      doc.isAvailable = true ∧ userData.fcmToken ≠ "" ∧
      m' = m ++ [(doc.docId,
        { bloodGroup := doc.bloodGroup, geo := g,
          isAvailable := doc.isAvailable, uid := doc.uid,
          fcmToken := userData.fcmToken })] := by
  unfold tryAccept at h
  split at h
  · exact Option.noConfusion h
  rename_i hhas
  split at h
  · exact Option.noConfusion h
  rename_i g hg
  split at h
  · exact Option.noConfusion h
  rename_i huid
  split at h
  · exact Option.noConfusion h
  rename_i userData hu
  split at h
  · rename_i hcond
    obtain ⟨h1, h2, h3, h4⟩ := hcond
    have hhas' : mapHas m doc.docId = false := by
      revert hhas; cases mapHas m doc.docId <;> simp
    exact ⟨g, userData, hg, hu, hhas', h1, h2, h3, h4,
      (Option.some.inj h).symm⟩
  · exact Option.noConfusion h

lemma tryAccept_none_of_not_eligible {ctx : SearchCtx} {r : ℕ} {doc : DonorDoc}
    (h : ¬ eligibleDoc ctx r doc) (m : List (String × MatchedDonor)) :
    tryAccept ctx r m doc = none := by
  cases hta : tryAccept ctx r m doc with
  | none => rfl
  | some m' =>
    obtain ⟨g, u, hg, hu, _, hd, hb, hav, htok, _⟩ := tryAccept_eq_some hta
    exact absurd ⟨g, u, hg, hu, hd, hb, hav, htok⟩ h

lemma processDocs_extend (ctx : SearchCtx) (r : ℕ) :
    ∀ (docs : List DonorDoc) (m : List (String × MatchedDonor)),
      ∃ t, processDocs ctx r docs m = m ++ t := by
  intro docs
  induction docs with
  | nil => intro m; exact ⟨[], by simp [processDocs]⟩
  | cons doc rest ih =>
    intro m
    cases hta : tryAccept ctx r m doc with
    | none => simpa [processDocs, hta] using ih m
    | some m' =>
      obtain ⟨g, u, hg, hu, hhas, hd, hb, hav, htok, hm'⟩ := tryAccept_eq_some hta
      by_cases hlen : ctx.target ≤ m'.length
      · refine ⟨[(doc.docId,
          { bloodGroup := doc.bloodGroup, geo := g, isAvailable := doc.isAvailable,
            uid := doc.uid, fcmToken := u.fcmToken })], ?_⟩
        rw [show processDocs ctx r (doc :: rest) m = m' by
          simp [processDocs, hta, hlen]]
        exact hm'
      · obtain ⟨t, ht⟩ := ih m'
        refine ⟨[(doc.docId,
          { bloodGroup := doc.bloodGroup, geo := g, isAvailable := doc.isAvailable,
            uid := doc.uid, fcmToken := u.fcmToken })] ++ t, ?_⟩
        rw [show processDocs ctx r (doc :: rest) m = processDocs ctx r rest m' by
          simp [processDocs, hta, hlen]]
        rw [ht, hm']
        simp

lemma processDocs_mem (ctx : SearchCtx) (r : ℕ) :
    ∀ (docs : List DonorDoc) (m : List (String × MatchedDonor))
      (p : String × MatchedDonor), p ∈ processDocs ctx r docs m →
      p ∈ m ∨ GoodPair ctx r p := by
  intro docs
  induction docs with
  | nil => intro m p hp; exact Or.inl (by simpa [processDocs] using hp)
  | cons doc rest ih =>
    intro m p hp
    cases hta : tryAccept ctx r m doc with
    | none =>
      rw [show processDocs ctx r (doc :: rest) m = processDocs ctx r rest m by
        simp [processDocs, hta]] at hp
      exact ih m p hp
    | some m' =>
      obtain ⟨g, u, _, _, _, hd, hb, _, _, hm'⟩ := tryAccept_eq_some hta
      have hstep : ∀ q, q ∈ m' → q ∈ m ∨ GoodPair ctx r q := by
        intro q hq
        rw [hm'] at hq
        rcases List.mem_append.1 hq with h | h
        · exact Or.inl h
        · rcases List.mem_singleton.1 h with rfl
          exact Or.inr ⟨hd, hb⟩
      by_cases hlen : ctx.target ≤ m'.length
      · rw [show processDocs ctx r (doc :: rest) m = m' by
          simp [processDocs, hta, hlen]] at hp
        exact hstep p hp
      · rw [show processDocs ctx r (doc :: rest) m = processDocs ctx r rest m' by
          simp [processDocs, hta, hlen]] at hp
        rcases ih m' p hp with h | h
        · exact hstep p h
        · exact Or.inr h

lemma processDocs_nodup (ctx : SearchCtx) (r : ℕ) :
    ∀ (docs : List DonorDoc) (m : List (String × MatchedDonor)),
      (m.map Prod.fst).Nodup → ((processDocs ctx r docs m).map Prod.fst).Nodup := by
  intro docs
  induction docs with
  | nil => intro m hm; simpa [processDocs] using hm
  | cons doc rest ih =>
    intro m hm
    cases hta : tryAccept ctx r m doc with
    | none => rw [show processDocs ctx r (doc :: rest) m
        = processDocs ctx r rest m by simp [processDocs, hta]]; exact ih m hm
    | some m' =>
      obtain ⟨g, u, _, _, hhas, _, _, _, _, hm'⟩ := tryAccept_eq_some hta
      have hm'nd : (m'.map Prod.fst).Nodup := by
        rw [hm']
        have hnotin : doc.docId ∉ m.map Prod.fst := by
          intro hc
          rw [← mapHas_eq_true] at hc
          rw [hhas] at hc
          exact Bool.noConfusion hc
        simp [List.nodup_append, hm, hnotin]
      by_cases hlen : ctx.target ≤ m'.length
      · rw [show processDocs ctx r (doc :: rest) m = m' by
          simp [processDocs, hta, hlen]]
        exact hm'nd
      · rw [show processDocs ctx r (doc :: rest) m = processDocs ctx r rest m' by
          simp [processDocs, hta, hlen]]
        exact ih m' hm'nd

lemma processDocs_le_target (ctx : SearchCtx) (r : ℕ) :
    ∀ (docs : List DonorDoc) (m : List (String × MatchedDonor)),
      m.length < ctx.target → (processDocs ctx r docs m).length ≤ ctx.target := by
  intro docs
  induction docs with
  | nil => intro m hm; simpa [processDocs] using Nat.le_of_lt hm
  | cons doc rest ih =>
    intro m hm
    cases hta : tryAccept ctx r m doc with
    | none => rw [show processDocs ctx r (doc :: rest) m
        = processDocs ctx r rest m by simp [processDocs, hta]]; exact ih m hm
    | some m' =>
      obtain ⟨g, u, _, _, _, _, _, _, _, hm'⟩ := tryAccept_eq_some hta
      have hlen' : m'.length = m.length + 1 := by rw [hm']; simp
      by_cases hlen : ctx.target ≤ m'.length
      · rw [show processDocs ctx r (doc :: rest) m = m' by
          simp [processDocs, hta, hlen]]
        omega
      · rw [show processDocs ctx r (doc :: rest) m = processDocs ctx r rest m' by
          simp [processDocs, hta, hlen]]
        exact ih m' (by omega)

lemma processDocs_none (ctx : SearchCtx) (r : ℕ) :
    ∀ (docs : List DonorDoc) (m : List (String × MatchedDonor)),
      (∀ doc ∈ docs, ∀ m2, tryAccept ctx r m2 doc = none) →
      processDocs ctx r docs m = m := by
  intro docs
  induction docs with
  | nil => intro m _; simp [processDocs]
  | cons doc rest ih =>
    intro m h
    rw [show processDocs ctx r (doc :: rest) m = processDocs ctx r rest m by
      simp [processDocs, h doc (List.mem_cons_self doc rest) m]]
    exact ih m (fun d hd m2 => h d (List.mem_cons_of_mem doc hd) m2)

lemma processSnaps_extend (ctx : SearchCtx) (r : ℕ) :
    ∀ (snaps : List (List DonorDoc)) (m : List (String × MatchedDonor)),
      ∃ t, processSnaps ctx r snaps m = m ++ t := by
  intro snaps
  induction snaps with
  | nil => intro m; exact ⟨[], by simp [processSnaps]⟩
  | cons snap rest ih =>
    intro m
    obtain ⟨t1, ht1⟩ := processDocs_extend ctx r snap m
    by_cases hlen : ctx.target ≤ (processDocs ctx r snap m).length
    · refine ⟨t1, ?_⟩
      rw [show processSnaps ctx r (snap :: rest) m = processDocs ctx r snap m by
        simp [processSnaps, hlen]]
      exact ht1
    · obtain ⟨t2, ht2⟩ := ih (processDocs ctx r snap m)
      refine ⟨t1 ++ t2, ?_⟩
      rw [show processSnaps ctx r (snap :: rest) m
        = processSnaps ctx r rest (processDocs ctx r snap m) by
          simp [processSnaps, hlen]]
      rw [ht2, ht1]
      simp

lemma processSnaps_mem (ctx : SearchCtx) (r : ℕ) :
    ∀ (snaps : List (List DonorDoc)) (m : List (String × MatchedDonor))
      (p : String × MatchedDonor), p ∈ processSnaps ctx r snaps m →
      p ∈ m ∨ GoodPair ctx r p := by
  intro snaps
  induction snaps with
  | nil => intro m p hp; exact Or.inl (by simpa [processSnaps] using hp)
  | cons snap rest ih =>
    intro m p hp
    by_cases hlen : ctx.target ≤ (processDocs ctx r snap m).length
    · rw [show processSnaps ctx r (snap :: rest) m = processDocs ctx r snap m by
        simp [processSnaps, hlen]] at hp
      exact processDocs_mem ctx r snap m p hp
    · rw [show processSnaps ctx r (snap :: rest) m
        = processSnaps ctx r rest (processDocs ctx r snap m) by
          simp [processSnaps, hlen]] at hp
      rcases ih _ p hp with h | h
      · exact processDocs_mem ctx r snap m p h
      · exact Or.inr h

lemma processSnaps_nodup (ctx : SearchCtx) (r : ℕ) :
    ∀ (snaps : List (List DonorDoc)) (m : List (String × MatchedDonor)),
      (m.map Prod.fst).Nodup →
      ((processSnaps ctx r snaps m).map Prod.fst).Nodup := by
  intro snaps
  induction snaps with
  | nil => intro m hm; simpa [processSnaps] using hm
  | cons snap rest ih =>
    intro m hm
    by_cases hlen : ctx.target ≤ (processDocs ctx r snap m).length
    · rw [show processSnaps ctx r (snap :: rest) m = processDocs ctx r snap m by
        simp [processSnaps, hlen]]
      exact processDocs_nodup ctx r snap m hm
    · rw [show processSnaps ctx r (snap :: rest) m
        = processSnaps ctx r rest (processDocs ctx r snap m) by
          simp [processSnaps, hlen]]
      exact ih _ (processDocs_nodup ctx r snap m hm)

lemma processSnaps_le_target (ctx : SearchCtx) (r : ℕ) :
    ∀ (snaps : List (List DonorDoc)) (m : List (String × MatchedDonor)),
      m.length < ctx.target → (processSnaps ctx r snaps m).length ≤ ctx.target := by
  intro snaps
  induction snaps with
  | nil => intro m hm; simpa [processSnaps] using Nat.le_of_lt hm
  | cons snap rest ih =>
    intro m hm
    by_cases hlen : ctx.target ≤ (processDocs ctx r snap m).length
    · rw [show processSnaps ctx r (snap :: rest) m = processDocs ctx r snap m by
        simp [processSnaps, hlen]]
      exact processDocs_le_target ctx r snap m hm
    · rw [show processSnaps ctx r (snap :: rest) m
        = processSnaps ctx r rest (processDocs ctx r snap m) by
          simp [processSnaps, hlen]]
      exact ih _ (by omega)

lemma processSnaps_none (ctx : SearchCtx) (r : ℕ) :
    ∀ (snaps : List (List DonorDoc)) (m : List (String × MatchedDonor)),
      (∀ snap ∈ snaps, ∀ doc ∈ snap, ∀ m2, tryAccept ctx r m2 doc = none) →
      processSnaps ctx r snaps m = m := by
  intro snaps
  induction snaps with
  | nil => intro m _; simp [processSnaps]
  | cons snap rest ih =>
    intro m h
    have h1 : processDocs ctx r snap m = m :=
      processDocs_none ctx r snap m (h snap (List.mem_cons_self snap rest))
    by_cases hlen : ctx.target ≤ (processDocs ctx r snap m).length
    · rw [show processSnaps ctx r (snap :: rest) m = processDocs ctx r snap m by
        simp [processSnaps, hlen]]
      exact h1
    · rw [show processSnaps ctx r (snap :: rest) m
        = processSnaps ctx r rest (processDocs ctx r snap m) by
          simp [processSnaps, hlen]]
      rw [h1]
      exact ih m (fun s hs d hd m2 => h s (List.mem_cons_of_mem snap hs) d hd m2)

lemma GoodPair_mono {ctx : SearchCtx} {r r' : ℕ} {p : String × MatchedDonor}
    (h : GoodPair ctx r p) (hr : r ≤ r') : GoodPair ctx r' p :=
  ⟨le_trans h.1 (by exact_mod_cast hr), h.2⟩

lemma processRadius_extend (ctx : SearchCtx) (st : SearchState) :
    ∃ t, (processRadius ctx st).map = st.map ++ t := by
  obtain ⟨t, ht⟩ := processSnaps_extend ctx st.currentRadiusKm
    (ctx.store st.currentRadiusKm) st.map
  unfold processRadius
  split <;> exact ⟨t, ht⟩

lemma processRadius_radius_le (ctx : SearchCtx) (st : SearchState) :
    st.currentRadiusKm ≤ (processRadius ctx st).currentRadiusKm := by
  unfold processRadius
  split <;> simp

lemma processRadius_mem (ctx : SearchCtx) (st : SearchState)
    (p : String × MatchedDonor) (hp : p ∈ (processRadius ctx st).map) :
    p ∈ st.map ∨ GoodPair ctx st.currentRadiusKm p := by
  have hmap : (processRadius ctx st).map
      = processSnaps ctx st.currentRadiusKm (ctx.store st.currentRadiusKm) st.map := by
    unfold processRadius
    split <;> rfl
  rw [hmap] at hp
  exact processSnaps_mem ctx st.currentRadiusKm _ st.map p hp

lemma processRadius_nodup (ctx : SearchCtx) (st : SearchState)
    (h : (st.map.map Prod.fst).Nodup) :
    ((processRadius ctx st).map.map Prod.fst).Nodup := by
  have hmap : (processRadius ctx st).map
      = processSnaps ctx st.currentRadiusKm (ctx.store st.currentRadiusKm) st.map := by
    unfold processRadius
    split <;> rfl
  rw [hmap]
  exact processSnaps_nodup ctx st.currentRadiusKm _ st.map h

lemma processRadius_le_target (ctx : SearchCtx) (st : SearchState)
    (h : st.map.length < ctx.target) :
    (processRadius ctx st).map.length ≤ ctx.target := by
  have hmap : (processRadius ctx st).map
      = processSnaps ctx st.currentRadiusKm (ctx.store st.currentRadiusKm) st.map := by
    unfold processRadius
    split <;> rfl
  rw [hmap]
  exact processSnaps_le_target ctx st.currentRadiusKm _ st.map h

lemma iterStep_of_not_guard {ctx : SearchCtx} {st : SearchState}
    (h : ¬ (st.currentRadiusKm ≤ 50 ∧ st.map.length < ctx.target)) :
    iterStep ctx st = st := by
  unfold iterStep
  exact if_neg h

lemma iterStep_extend (ctx : SearchCtx) (st : SearchState) :
    ∃ t, (iterStep ctx st).map = st.map ++ t := by
  unfold iterStep
  split
  · exact processRadius_extend ctx st
  · exact ⟨[], by simp⟩

lemma searchIter_good (ctx : SearchCtx) :
    ∀ k, ∀ p ∈ (searchIter ctx k).map,
      GoodPair ctx (searchIter ctx k).currentRadiusKm p := by
  intro k
  induction k with
  | zero => intro p hp; simp [searchIter, initState] at hp
  | succ k ih =>
    intro p hp
    show GoodPair ctx (iterStep ctx (searchIter ctx k)).currentRadiusKm p
    have hp' : p ∈ (iterStep ctx (searchIter ctx k)).map := hp
    unfold iterStep at hp' ⊢
    by_cases hg : (searchIter ctx k).currentRadiusKm ≤ 50 ∧
        (searchIter ctx k).map.length < ctx.target
    · rw [if_pos hg] at hp' ⊢
      rcases processRadius_mem ctx _ p hp' with h | h
      · exact GoodPair_mono (ih p h) (processRadius_radius_le ctx _)
      · exact GoodPair_mono h (processRadius_radius_le ctx _)
    · rw [if_neg hg] at hp' ⊢
      exact ih p hp'

lemma searchIter_nodup (ctx : SearchCtx) :
    ∀ k, ((searchIter ctx k).map.map Prod.fst).Nodup := by
  intro k
  induction k with
  | zero => simp [searchIter, initState]
  | succ k ih =>
    show (((iterStep ctx (searchIter ctx k)).map.map Prod.fst)).Nodup
    unfold iterStep
    split
    · exact processRadius_nodup ctx _ ih
    · exact ih

lemma searchIter_le_target (ctx : SearchCtx) :
    ∀ k, (searchIter ctx k).map.length ≤ ctx.target := by
  intro k
  induction k with
  | zero => simp [searchIter, initState]
  | succ k ih =>
    show (iterStep ctx (searchIter ctx k)).map.length ≤ ctx.target
    unfold iterStep
    split
    · rename_i hg
      exact processRadius_le_target ctx _ hg.2
    · exact ih

lemma searchMeasure_step {ctx : SearchCtx} {st : SearchState}
    (h : st.currentRadiusKm ≤ 50 ∧ st.map.length < ctx.target) :
    searchMeasure ctx (iterStep ctx st) + 2 ≤ searchMeasure ctx st := by
  rw [iterStep, if_pos h]
  have hm : searchMeasure ctx st = (52 - st.currentRadiusKm) + 2 := by
    rw [searchMeasure, if_pos h.2]
  unfold processRadius
  split
  · rename_i hlt
    rw [searchMeasure]
    rw [if_pos hlt]
    simp only
    omega
  · rename_i hge
    rw [searchMeasure]
    simp only
    rw [if_neg hge]
    omega

lemma searchIter_measure (ctx : SearchCtx) :
    ∀ k, ((searchIter ctx k).currentRadiusKm ≤ 50 ∧
        (searchIter ctx k).map.length < ctx.target) →
      searchMeasure ctx (searchIter ctx k) + 2 * k ≤ 52 := by
  intro k
  induction k with
  | zero =>
    intro h
    rw [searchMeasure, if_pos h.2]
    have h2 : (searchIter ctx 0).currentRadiusKm = 2 := rfl
    omega
  | succ k ih =>
    intro h
    by_cases hg : (searchIter ctx k).currentRadiusKm ≤ 50 ∧
        (searchIter ctx k).map.length < ctx.target
    · have h1 := ih hg
      have h2 := searchMeasure_step hg
      have h3 : searchIter ctx (k + 1) = iterStep ctx (searchIter ctx k) := rfl
      rw [h3]
      omega
    · have h3 : searchIter ctx (k + 1) = searchIter ctx k := by
        show iterStep ctx (searchIter ctx k) = searchIter ctx k
        exact iterStep_of_not_guard hg
      rw [h3] at h
      exact absurd h hg

lemma searchIter_not_guard_25 (ctx : SearchCtx) :
    ¬ ((searchIter ctx 25).currentRadiusKm ≤ 50 ∧
        (searchIter ctx 25).map.length < ctx.target) := by
  intro h
  have h1 := searchIter_measure ctx 25 h
  have h2 : searchMeasure ctx (searchIter ctx 25)
      = (52 - (searchIter ctx 25).currentRadiusKm) + 2 := by
    rw [searchMeasure, if_pos h.2]
  omega

lemma searchIter_stable (ctx : SearchCtx) :
    ∀ n, 25 ≤ n → searchIter ctx n = searchIter ctx 25 := by
  intro n hn
  induction n, hn using Nat.le_induction with
  | base => rfl
  | succ n hn ih =>
    show iterStep ctx (searchIter ctx n) = searchIter ctx 25
    rw [ih]
    exact iterStep_of_not_guard (searchIter_not_guard_25 ctx)

lemma searchIter_flag (ctx : SearchCtx) :
    ∀ k, 50 < (searchIter ctx k).currentRadiusKm →
      (searchIter ctx k).expandedToMax = true := by
  intro k
  induction k with
  | zero =>
    intro h
    have : (searchIter ctx 0).currentRadiusKm = 2 := rfl
    omega
  | succ k ih =>
    show 50 < (iterStep ctx (searchIter ctx k)).currentRadiusKm →
      (iterStep ctx (searchIter ctx k)).expandedToMax = true
    unfold iterStep
    split
    · rename_i hg
      unfold processRadius
      split
      · rename_i hlt
        simp only
        intro h50
        have : decide (50 < (searchIter ctx k).currentRadiusKm + 2) = true :=
          decide_eq_true h50
        rw [this]
        simp
      · rename_i hge
        simp only
        intro h50
        omega
    · exact ih

lemma searchIter_flag_of_under_target (ctx : SearchCtx)
    (h : (searchIter ctx 25).map.length < ctx.target) :
    (searchIter ctx 25).expandedToMax = true := by
  have hng := searchIter_not_guard_25 ctx
  have h50 : 50 < (searchIter ctx 25).currentRadiusKm := by
    by_contra hc
    exact hng ⟨by omega, h⟩
  exact searchIter_flag ctx 25 h50

lemma searchIter_empty (ctx : SearchCtx)
    (hne : ∀ r snap doc, snap ∈ ctx.store r → doc ∈ snap →
      ¬ eligibleDoc ctx r doc) :
    ∀ k, (searchIter ctx k).map = [] := by
  intro k
  induction k with
  | zero => rfl
  | succ k ih =>
    show (iterStep ctx (searchIter ctx k)).map = []
    unfold iterStep
    split
    · have hmap : (processRadius ctx (searchIter ctx k)).map
          = processSnaps ctx (searchIter ctx k).currentRadiusKm
            (ctx.store (searchIter ctx k).currentRadiusKm)
            (searchIter ctx k).map := by
        unfold processRadius
        split <;> rfl
      rw [hmap]
      rw [processSnaps_none ctx _ _ _
        (fun snap hs doc hd m2 =>
          tryAccept_none_of_not_eligible (hne _ snap doc hs hd) m2)]
      exact ih
    · exact ih

/-! ## Lemmas about the relevance-filter step -/

lemma mapSet_mem {m : List (String × MatchedDonor)} {k : String}
    {v : MatchedDonor} {p : String × MatchedDonor}
    (hp : p ∈ mapSet m k v) : p ∈ m ∨ p = (k, v) := by
  unfold mapSet at hp
  split at hp
  · rcases List.mem_map.1 hp with ⟨q, hq, hfq⟩
    by_cases h1 : q.1 = k
    · rw [if_pos h1] at hfq
      exact Or.inr hfq.symm
    · rw [if_neg h1] at hfq
      exact Or.inl (hfq ▸ hq)
  · rcases List.mem_append.1 hp with h | h
    · exact Or.inl h
    · exact Or.inr (List.mem_singleton.1 h)

lemma rebuild_mem {ids : List String} :
    ∀ (l acc : List (String × MatchedDonor)) (p : String × MatchedDonor),
      p ∈ l.foldl
        (fun a q => if q.2.uid ∈ ids then mapSet a q.2.uid q.2 else a) acc →
      p ∈ acc ∨ ∃ q, q ∈ l ∧ p = (q.2.uid, q.2) := by
  intro l
  induction l with
  | nil => intro acc p hp; exact Or.inl hp
  | cons q rest ih =>
    intro acc p hp
    rw [List.foldl_cons] at hp
    rcases ih _ p hp with h | ⟨q', hq', he⟩
    · by_cases hq : q.2.uid ∈ ids
      · rw [if_pos hq] at h
        rcases mapSet_mem h with h2 | h2
        · exact Or.inl h2
        · exact Or.inr ⟨q, List.mem_cons_self q rest, h2⟩
      · rw [if_neg hq] at h
        exact Or.inl h
    · exact Or.inr ⟨q', List.mem_cons_of_mem q hq', he⟩

lemma rebuildByUid_val_mem {m : List (String × MatchedDonor)} {ids : List String}
    {p : String × MatchedDonor} (hp : p ∈ rebuildByUid m ids) :
    p.2 ∈ m.map Prod.snd := by
  unfold rebuildByUid at hp
  rcases rebuild_mem m [] p hp with h | ⟨q, hq, he⟩
  · exact absurd h (List.not_mem_nil p)
  · rw [he]
    simpa using List.mem_map_of_mem Prod.snd hq

lemma mapHas_append_singleton_false {acc : List (String × MatchedDonor)}
    {x : String × MatchedDonor} {k : String}
    (h1 : mapHas acc k = false) (h2 : x.1 ≠ k) :
    mapHas (acc ++ [x]) k = false := by
  unfold mapHas at h1 ⊢
  rw [List.any_append, h1]
  simp [h2]

lemma rebuild_eq {ids : List String} :
    ∀ (l acc : List (String × MatchedDonor)),
      (∀ q ∈ l, q.2.uid ∈ ids) →
      (∀ q ∈ l, mapHas acc q.2.uid = false) →
      (l.map (fun q => q.2.uid)).Nodup →
      l.foldl (fun a q => if q.2.uid ∈ ids then mapSet a q.2.uid q.2 else a) acc
        = acc ++ l.map (fun q => (q.2.uid, q.2)) := by
  intro l
  induction l with
  | nil => intro acc _ _ _; simp
  | cons q rest ih =>
    intro acc h1 h2 h3
    rw [List.foldl_cons, if_pos (h1 q (List.mem_cons_self q rest))]
    rw [show mapSet acc q.2.uid q.2 = acc ++ [(q.2.uid, q.2)] by
      unfold mapSet
      rw [h2 q (List.mem_cons_self q rest)]
      simp]
    have hndtail : (rest.map (fun q => q.2.uid)).Nodup := (List.nodup_cons.1 h3).2
    have hnotin : q.2.uid ∉ rest.map (fun q => q.2.uid) := (List.nodup_cons.1 h3).1
    rw [ih (acc ++ [(q.2.uid, q.2)])
      (fun q' hq' => h1 q' (List.mem_cons_of_mem q hq'))
      (fun q' hq' => by
        refine mapHas_append_singleton_false
          (h2 q' (List.mem_cons_of_mem q hq')) ?_
        intro he
        have he' : q'.2.uid = q.2.uid := (show q.2.uid = q'.2.uid from he).symm
        exact hnotin (he' ▸ List.mem_map_of_mem (fun q => q.2.uid) hq'))
      hndtail]
    simp

/-! ## Lemmas about the confirmation and cancellation handlers -/

lemma count_flatMap_one {α β : Type} [DecidableEq α] [DecidableEq β]
    (f : α → List β) (e : β) :
    ∀ (l : List α) (a : α), l.Nodup → a ∈ l → (f a).count e = 1 →
      (∀ x ∈ l, x ≠ a → e ∉ f x) → (l.flatMap f).count e = 1 := by
  intro l
  induction l with
  | nil => intro a _ ha; exact absurd ha (List.not_mem_nil a)
  | cons y rest ih =>
    intro a hnd ha h1 h2
    rw [List.flatMap_cons, List.count_append]
    by_cases hya : y = a
    · subst hya
      have hnotin : y ∉ rest := (List.nodup_cons.1 hnd).1
      have hrest : (rest.flatMap f).count e = 0 := by
        rw [List.count_eq_zero]
        intro hmem
        rcases List.mem_flatMap.1 hmem with ⟨x, hx, hex⟩
        have hxa : x ≠ y := fun h => hnotin (h ▸ hx)
        exact h2 x (List.mem_cons_of_mem y hx) hxa hex
      rw [h1, hrest]
    · have ha' : a ∈ rest := by
        rcases List.mem_cons.1 ha with h | h
        · exact absurd h.symm hya
        · exact h
      have hfy : (f y).count e = 0 :=
        List.count_eq_zero.2 (h2 y (List.mem_cons_self y rest) hya)
      rw [hfy, ih a (List.nodup_cons.1 hnd).2 ha' h1
        (fun x hx hxa => h2 x (List.mem_cons_of_mem y hx) hxa)]

lemma cancelTokenOf_eq_some {users : String → Option UserDoc} {uid : String}
    {p : String × String} (h : cancelTokenOf users uid = some p) :
    p.1 = uid ∧ ∃ u, users uid = some u ∧ u.fcmToken ≠ "" ∧ p.2 = u.fcmToken := by
  unfold cancelTokenOf at h
  split at h
  · exact Option.noConfusion h
  rename_i u hu
  split at h
  · exact Option.noConfusion h
  rename_i htok
  have := Option.some.inj h
  rw [← this]
  exact ⟨rfl, u, hu, htok, rfl⟩

lemma filterTokens_map_fst (users : String → Option UserDoc) :
    ∀ l : List String,
      (∀ uid ∈ l, ∃ u, users uid = some u ∧ u.fcmToken ≠ "") →
      (l.filterMap (cancelTokenOf users)).map Prod.fst = l := by
  intro l
  induction l with
  | nil => intro _; rfl
  | cons uid rest ih =>
    intro h
    obtain ⟨u, hu, htok⟩ := h uid (List.mem_cons_self uid rest)
    have hc : cancelTokenOf users uid = some (uid, u.fcmToken) := by
      simp [cancelTokenOf, hu, htok]
    rw [List.filterMap_cons, hc, List.map_cons,
      ih (fun x hx => h x (List.mem_cons_of_mem uid hx))]

/-! ## Claim theorems -/

/-- C1: the claim states that whenever at least one candidate survives the
search and the relevance filter, the creation pass persists the surviving id
set as `foundDonors` and every survivor receives a message record and the
multicast push.  The code cannot do this: for every surviving donor map, the
tail of `onBloodRequestCreated` reads the unbound identifier `after` while
building `messageContent`, so the `ReferenceError` is caught and none of the
three side effects of lines 579-583 is performed. -/
theorem C1_creation_tail_reference_error :
    ∀ filtered : List (String × MatchedDonor),
      onBloodRequestCreatedTail onBloodRequestCreatedScope filtered
        = CreationTailResult.caughtReferenceError "after" := by
  have h : firstUnboundIdent messageContentIdents onBloodRequestCreatedScope
      = some "after" := by decide
  intro filtered
  unfold onBloodRequestCreatedTail
  rw [h]

/-- C3: at every radius step, no donor whose exact distance to the center
exceeds the radius being examined enters the accepted set at that radius,
regardless of what the range queries return; and every donor accepted after
any number of iterations is within the current radius. -/
theorem C3_exact_distance (ctx : SearchCtx) :
    (∀ (r : ℕ) (m : List (String × MatchedDonor)),
      (∀ p ∈ m, ctx.dist p.2.geo ctx.center ≤ (r : ℚ)) →
      ∀ p ∈ processSnaps ctx r (ctx.store r) m,
        ctx.dist p.2.geo ctx.center ≤ (r : ℚ)) ∧
    (∀ k, ∀ p ∈ (searchIter ctx k).map,
      ctx.dist p.2.geo ctx.center ≤ ((searchIter ctx k).currentRadiusKm : ℚ)) := by
  constructor
  · intro r m hm p hp
    rcases processSnaps_mem ctx r (ctx.store r) m p hp with h | h
    · exact hm p h
    · exact h.1
  · intro k p hp
    exact (searchIter_good ctx k p hp).1

/-- Witness for C3 at a concrete context: the accepted donor of `ctxW` is
within the final radius. -/
theorem C3_exact_distance_witness :
    ctxW.dist matchedW.geo ctxW.center ≤ ((searchIter ctxW 1).currentRadiusKm : ℚ) :=
  (C3_exact_distance ctxW).2 1 ("d1", matchedW) (by decide)

/-- C4: the accepted set after each iteration is contained in the accepted
set after the next iteration (a donor accepted at an earlier step is never
removed), and the accepted ids are duplicate-free at every step. -/
theorem C4_monotonic_accumulation (ctx : SearchCtx) (k : ℕ) :
    (∀ p ∈ (searchIter ctx k).map, p ∈ (searchIter ctx (k + 1)).map) ∧
    ((searchIter ctx k).map.map Prod.fst).Nodup := by
  constructor
  · intro p hp
    obtain ⟨t, ht⟩ := iterStep_extend ctx (searchIter ctx k)
    show p ∈ (iterStep ctx (searchIter ctx k)).map
    rw [ht]
    exact List.mem_append_left t hp
  · exact searchIter_nodup ctx k

/-- Witness for C4: the donor accepted at the first step of `ctxW` is still
present after the second. -/
theorem C4_monotonic_accumulation_witness :
    ("d1", matchedW) ∈ (searchIter ctxW 2).map :=
  (C4_monotonic_accumulation ctxW 1).1 ("d1", matchedW) (by decide)

/-- C5: with start radius 2, step 2 and ceiling 50 baked into the loop, the
search reaches its fixpoint within 25 = ceil((50-2)/2)+1 iterations; ending
below the target count forces the exhausted flag; and if no document is ever
eligible, the result is the empty set with the flag set. -/
theorem C5_termination_exhaustion (ctx : SearchCtx) :
    (∀ n, 25 ≤ n → searchIter ctx n = searchIter ctx 25) ∧
    ((searchIter ctx 25).map.length < ctx.target →
      (searchIter ctx 25).expandedToMax = true) ∧
    (0 < ctx.target →
      (∀ r snap doc, snap ∈ ctx.store r → doc ∈ snap →
        ¬ eligibleDoc ctx r doc) →
      (searchIter ctx 25).map = [] ∧ (searchIter ctx 25).expandedToMax = true) := by
  refine ⟨searchIter_stable ctx, searchIter_flag_of_under_target ctx, ?_⟩
  intro hpos hne
  have hmap := searchIter_empty ctx hne 25
  refine ⟨hmap, searchIter_flag_of_under_target ctx ?_⟩
  rw [hmap]
  simpa using hpos

/-- Witness for C5 on the empty-store context: the loop is stable after 25
iterations and exhausts with an empty result. -/
theorem C5_termination_exhaustion_witness :
    searchIter ctxE 26 = searchIter ctxE 25 ∧
    (searchIter ctxE 25).map = [] ∧
    (searchIter ctxE 25).expandedToMax = true := by
  have hne : ∀ r snap doc, snap ∈ ctxE.store r → doc ∈ snap →
      ¬ eligibleDoc ctxE r doc := by
    intro r snap doc hs _
    simp [ctxE] at hs
  exact ⟨(C5_termination_exhaustion ctxE).1 26 (by decide),
    ((C5_termination_exhaustion ctxE).2.2 (by decide) hne).1,
    ((C5_termination_exhaustion ctxE).2.2 (by decide) hne).2⟩

/-- C6: a donor record whose normalized (trimmed, uppercased) blood group is
not a member of the normalized requested set is never present in the accepted
set at any iteration, for every context. -/
theorem C6_eligibility_exclusivity (ctx : SearchCtx) (k : ℕ)
    (p : String × MatchedDonor)
    (h : normalizeBG p.2.bloodGroup ∉ stdGroups ctx) :
    p ∉ (searchIter ctx k).map := by
  intro hp
  exact h (searchIter_good ctx k p hp).2

/-- Witness for C6: the `AB+` donor is never accepted when only `O+` is
requested. -/
theorem C6_eligibility_exclusivity_witness :
    ("d2", matchedW2) ∉ (searchIter ctxW 25).map :=
  C6_eligibility_exclusivity ctxW 25 ("d2", matchedW2) (by decide)

/-- C10: the accepted set never holds more donors than the target count, and
with the creation flow's target clamp(units, 3, 5) it never exceeds 5, at
every iteration and for every context. -/
theorem C10_target_cap (ctx : SearchCtx) (k : ℕ) :
    (searchIter ctx k).map.length ≤ ctx.target ∧
    ∀ (d : Geo → Geo → ℚ) (s : ℕ → List (List DonorDoc))
      (us : String → Option UserDoc) (c : Geo) (gs : List String) (units : ℕ),
      (searchIter ⟨d, s, us, c, gs, targetDonorCount units⟩ k).map.length ≤ 5 := by
  constructor
  · exact searchIter_le_target ctx k
  · intro d s us c gs units
    exact le_trans
      (searchIter_le_target ⟨d, s, us, c, gs, targetDonorCount units⟩ k)
      (Nat.min_le_right (max units 3) 5)

/-- C2 counterexample: on an unparseable agent reply the code does not return
the original map unchanged — it rebuilds the map keyed by uid, so the single
record keyed `u_daytime` is re-keyed to `u`, and when two accepted records
share one uid (one user's `_daytime`/`_nighttime` donor documents) a record
is dropped from the candidate set. -/
theorem C2_failopen_counterexample :
    adkFilterStep singleMapW (AgentOutcome.reply AgentReply.parseError)
        ≠ singleMapW ∧
    adkFilterStep dualMapW (AgentOutcome.reply AgentReply.parseError)
        = [("u", dualB)] ∧
    dualA ∈ dualMapW.map Prod.snd ∧
    dualA ∉ (adkFilterStep dualMapW
        (AgentOutcome.reply AgentReply.parseError)).map Prod.snd := by
  decide

/-- C2 amended: a failed call, an invalid response, or a parsed non-array
reply leaves the candidate map exactly unchanged; in every outcome each
post-filter donor value is a pre-filter donor value (subset); and on an
unparseable reply the result is the pre-filter donors re-keyed by uid, which
preserves the candidate records exactly when the accepted uids are
duplicate-free. -/
theorem C2_failopen_amended (m : List (String × MatchedDonor)) (o : AgentOutcome) :
    ((o = AgentOutcome.requestFailed ∨ o = AgentOutcome.invalidResponse ∨
        o = AgentOutcome.reply AgentReply.nonArray) → adkFilterStep m o = m) ∧
    (∀ p ∈ adkFilterStep m o, p.2 ∈ m.map Prod.snd) ∧
    ((donorIdsOf m).Nodup →
      adkFilterStep m (AgentOutcome.reply AgentReply.parseError)
        = m.map (fun p => (p.2.uid, p.2))) := by
  refine ⟨?_, ?_, ?_⟩
  · rintro (rfl | rfl | rfl) <;> rfl
  · intro p hp
    cases o with
    | requestFailed => exact List.mem_map_of_mem Prod.snd hp
    | invalidResponse => exact List.mem_map_of_mem Prod.snd hp
    | reply r =>
      cases r with
      | parseError => exact rebuildByUid_val_mem hp
      | nonArray => exact List.mem_map_of_mem Prod.snd hp
      | idList ids => exact rebuildByUid_val_mem hp
  · intro hnd
    show rebuildByUid m (donorIdsOf m) = _
    unfold rebuildByUid
    rw [@rebuild_eq (donorIdsOf m) m []
      (fun q hq => List.mem_map_of_mem (fun p => p.2.uid) hq)
      (fun q hq => rfl) hnd]
    simp

/-- Witness for C2: the fail-open identity on a failed call, and the uid
re-keying on an unparseable reply, at a concrete single-donor map. -/
theorem C2_failopen_witness :
    adkFilterStep singleMapW AgentOutcome.requestFailed = singleMapW ∧
    adkFilterStep singleMapW (AgentOutcome.reply AgentReply.parseError)
      = singleMapW.map (fun p => (p.2.uid, p.2)) :=
  ⟨(C2_failopen_amended singleMapW AgentOutcome.requestFailed).1 (Or.inl rfl),
    (C2_failopen_amended singleMapW AgentOutcome.requestFailed).2.2 (by decide)⟩

/-- C7: an update event whose confirmed-donor list gained no new id (in
particular a redelivered event with an unchanged list) produces no write and
no send: the handler returns before any effect. -/
theorem C7_confirmation_idempotent (before after : RequestDoc)
    (users : String → Option UserDoc) (provider : Option ProviderDoc)
    (requestId : String) (hour : ℕ)
    (h : ∀ id ∈ after.matchedDonors.getD [], id ∈ before.matchedDonors.getD []) :
    onMatchedDonorAddedEffects before after users provider requestId hour = [] := by
  unfold onMatchedDonorAddedEffects
  cases hb : before.matchedDonors with
  | none => rfl
  | some bs =>
    cases ha : after.matchedDonors with
    | none => rfl
    | some curr =>
      rw [hb, ha] at h
      simp only [Option.getD_some] at h
      have hfil : curr.filter (fun id => decide (id ∉ bs)) = [] := by
        rw [List.filter_eq_nil_iff]
        intro id hid
        simp [h id hid]
      simp only [hfil, List.length_nil]
      rfl

/-- Witness for C7: a redelivered unchanged update performs no effect. -/
theorem C7_confirmation_idempotent_witness :
    onMatchedDonorAddedEffects beforeW afterW usersFull none "req1" 10 = [] :=
  C7_confirmation_idempotent beforeW afterW usersFull none "req1" 10 (by decide)

/-- C8 counterexample: a deletion whose recorded list is `[A, B]` contacts
only `A` when `B` has no user document, so the notices do not go to exactly
the recorded donors. -/
theorem C8_cancellation_counterexample :
    deletedReqW.foundDonors.getD [] = ["A", "B"] ∧
    cancellationRecipients deletedReqW usersCancelW = [("A", "tA")] ∧
    "B" ∉ (cancellationRecipients deletedReqW usersCancelW).map Prod.fst ∧
    onBloodRequestDeletedSends (some deletedReqW) none usersCancelW = [["tA"]] := by
  decide

/-- C8 amended: cancellation notices go only to donors of the recorded list
(no other donor is contacted); they go to exactly those recorded donors whose
user document exists with a nonempty token — equal to the whole recorded list
when every recorded donor has such a token; an empty or absent recorded list,
or an event that is not a deletion, is a no-op; and when any recipient
resolves, exactly one multicast to the resolved tokens is sent. -/
theorem C8_cancellation_amended (bd : RequestDoc)
    (users : String → Option UserDoc) :
    (∀ p ∈ cancellationRecipients bd users, p.1 ∈ bd.foundDonors.getD []) ∧
    ((∀ uid ∈ bd.foundDonors.getD [], ∃ u, users uid = some u ∧ u.fcmToken ≠ "") →
      (cancellationRecipients bd users).map Prod.fst = bd.foundDonors.getD []) ∧
    (bd.foundDonors.getD [] = [] →
      onBloodRequestDeletedSends (some bd) none users = []) ∧
    (∀ ad, onBloodRequestDeletedSends (some bd) (some ad) users = []) ∧
    (onBloodRequestDeletedSends none none users = []) ∧
    (cancellationRecipients bd users ≠ [] →
      onBloodRequestDeletedSends (some bd) none users
        = [(cancellationRecipients bd users).map Prod.snd]) := by
  refine ⟨?_, ?_, ?_, ?_, ?_, ?_⟩
  · intro p hp
    rcases List.mem_filterMap.1 hp with ⟨uid, hu, hc⟩
    rcases cancelTokenOf_eq_some hc with ⟨h1, _⟩
    exact h1 ▸ hu
  · exact filterTokens_map_fst users _
  · intro h
    unfold onBloodRequestDeletedSends
    simp [h]
  · intro ad; rfl
  · rfl
  · intro hne
    have hfd : ¬ ((bd.foundDonors.getD []).length = 0) := by
      intro h0
      apply hne
      unfold cancellationRecipients
      rw [List.length_eq_zero.1 h0]
      rfl
    have hmap : ¬ (((cancellationRecipients bd users).map Prod.snd).length = 0) := by
      intro h0
      exact hne (List.map_eq_nil_iff.1 (List.length_eq_zero.1 h0))
    unfold onBloodRequestDeletedSends
    simp only [if_neg hfd, if_neg hmap]

/-- Witness for C8: the concrete deletion sends exactly one multicast to the
resolved tokens, and a non-deletion write is a no-op. -/
theorem C8_cancellation_witness :
    onBloodRequestDeletedSends (some deletedReqW) none usersCancelW
      = [(cancellationRecipients deletedReqW usersCancelW).map Prod.snd] ∧
    onBloodRequestDeletedSends (some deletedReqW) (some deletedReqW)
      usersCancelW = [] :=
  ⟨(C8_cancellation_amended deletedReqW usersCancelW).2.2.2.2.2 (by decide),
    (C8_cancellation_amended deletedReqW usersCancelW).2.2.2.1 deletedReqW⟩

/-- C9 counterexample: donor `d1` newly appears in the confirmed list, yet no
match record (and no notification) is created because the requester's user
document has no token — the handler exits before the per-donor loop. -/
theorem C9_match_record_counterexample :
    onMatchedDonorAddedEffects beforeAdd afterAdd usersNoReqToken none
        "req1" 10 = [] ∧
    "d1" ∈ afterAdd.matchedDonors.getD [] ∧
    "d1" ∉ beforeAdd.matchedDonors.getD [] := by
  decide

/-- C9 amended: provided the requester id is nonempty and resolves to a user
document with a nonempty token, the updated list has no duplicates, and the
newly appearing donor id resolves to a user document, then exactly one match
record with status `matched` and the provider name is written for the
(request, donor) pair, and the requester push carries the donor's display
name and the daytime address exactly when the local hour is in [6,18),
otherwise the nighttime address. -/
theorem C9_match_record_amended (before after : RequestDoc)
    (users : String → Option UserDoc) (provider : Option ProviderDoc)
    (requestId : String) (hour : ℕ) (bs curr : List String)
    (donorUid : String) (u d : UserDoc)
    (hb : before.matchedDonors = some bs) (ha : after.matchedDonors = some curr)
    (hnd : curr.Nodup) (hin : donorUid ∈ curr) (hnotin : donorUid ∉ bs)
    (hrq : ¬ (after.requestedBy = "")) (hu : users after.requestedBy = some u)
    (htok : ¬ (u.fcmToken = "")) (hd : users donorUid = some d) :
    (onMatchedDonorAddedEffects before after users provider requestId hour).count
        (Effect.matchWrite donorUid requestId "matched"
          (providerNameOf (provider.getD ⟨"", "", "", ""⟩))) = 1 ∧
    Effect.push [u.fcmToken] "A suitable donor has confirmed availability."
        ("Name: " ++ jsTrim (d.firstName ++ " " ++ d.lastName) ++ "\nArea: " ++
          jsOr (if 6 ≤ hour ∧ hour < 18 then d.daytimeAddress
            else d.nighttimeAddress) "Unknown" ++
          "\nKindly prepare for donation.")
        requestId donorUid
      ∈ onMatchedDonorAddedEffects before after users provider requestId hour := by
  have hmemf : donorUid ∈ curr.filter (fun id => decide (id ∉ bs)) :=
    List.mem_filter.2 ⟨hin, by simp [hnotin]⟩
  have hlen0 : ¬ ((curr.filter (fun id => decide (id ∉ bs))).length = 0) := by
    intro h0
    rw [List.length_eq_zero.1 h0] at hmemf
    exact List.not_mem_nil donorUid hmemf
  have hE : onMatchedDonorAddedEffects before after users provider requestId hour
      = (curr.filter (fun id => decide (id ∉ bs))).flatMap
          (processConfirmedDonor users u.fcmToken
            (providerNameOf (provider.getD ⟨"", "", "", ""⟩)) requestId hour) := by
    unfold onMatchedDonorAddedEffects
    simp only [hb, ha, hu, if_neg hlen0, if_neg hrq, if_neg htok]
  rw [hE]
  constructor
  · apply count_flatMap_one _ _ _ donorUid (hnd.filter _) hmemf
    · simp [processConfirmedDonor, hd, List.count_cons]
    · intro x hx hxne
      cases hdx : users x with
      | none => simp [processConfirmedDonor, hdx]
      | some dx =>
        simp only [processConfirmedDonor, hdx]
        intro hmem
        rcases List.mem_cons.1 hmem with hcase | hmem2
        · exact Effect.noConfusion hcase
        rcases List.mem_cons.1 hmem2 with hcase | hmem3
        · injection hcase with h1 _ _ _
          exact hxne h1.symm
        rcases List.mem_cons.1 hmem3 with hcase | hmem4
        · exact Effect.noConfusion hcase
        · exact absurd hmem4 (List.not_mem_nil _)
  · refine List.mem_flatMap.2 ⟨donorUid, hmemf, ?_⟩
    simp only [processConfirmedDonor, hd]
    exact List.mem_cons_self _ _

/-- Witness for C9 at a concrete update: one match record and the daytime
push for donor `d1`. -/
theorem C9_match_record_witness :
    (onMatchedDonorAddedEffects beforeAdd afterAdd usersFull none
        "req1" 10).count
      (Effect.matchWrite "d1" "req1" "matched"
        (providerNameOf ((none : Option ProviderDoc).getD ⟨"", "", "", ""⟩)))
      = 1 ∧
    Effect.push [requesterW.fcmToken]
        "A suitable donor has confirmed availability."
        ("Name: " ++ jsTrim (donorUserW.firstName ++ " " ++ donorUserW.lastName)
          ++ "\nArea: " ++
          jsOr (if 6 ≤ (10 : ℕ) ∧ (10 : ℕ) < 18 then donorUserW.daytimeAddress
            else donorUserW.nighttimeAddress) "Unknown" ++
          "\nKindly prepare for donation.")
        "req1" "d1"
      ∈ onMatchedDonorAddedEffects beforeAdd afterAdd usersFull none "req1" 10 :=
  C9_match_record_amended beforeAdd afterAdd usersFull none "req1" 10 [] ["d1"]
    "d1" requesterW donorUserW
    rfl rfl (by decide) (by decide) (by decide) (by decide) (by decide)
    (by decide) (by decide)

end Hema
